import Mathlib

/-!
Shallow embedding of `src/todo.py` (class `TodoApp`): an in-memory todo
store with sequential integer ids plus an HTML renderer. Python lists
become Lean lists, the mutable `self` becomes explicit state passing,
Python `str.strip` becomes `pyStrip`, and the `datetime.now()` call
in `add_todo` becomes an explicit `now` argument. Methods that in Python
mutate `self` and return a display string here return the new state
together with that string.
-/

namespace TodoPy

/-- A todo record, mirroring the dict literal built in `add_todo`
(`src/todo.py` lines 16-21). -/
structure Todo where
  id : Int
  text : String
  completed : Bool
  created_at : String
deriving Repr, DecidableEq

/-- The mutable state of `TodoApp`: the `self.todos` list and the
`self.next_id` counter (`src/todo.py` lines 7-9). -/
structure TodoApp where
  todos : List Todo
  next_id : Int
deriving Repr, DecidableEq

/-- `TodoApp.__init__`: empty list, counter starts at 1. -/
def TodoApp.init : TodoApp := ⟨[], 1⟩

/-- Python's `str.strip()` with no argument, as used in `add_todo` and
`edit_todo`: remove leading and trailing whitespace. Written by structural
recursion on the character list so the kernel can evaluate it (the core
`String.trim` uses well-founded recursion on byte positions and does not
reduce); whitespace is `Char.isWhitespace`. -/
def pyStrip (s : String) : String :=
  ⟨((s.data.dropWhile Char.isWhitespace).reverse.dropWhile Char.isWhitespace).reverse⟩

/-- The empty-state HTML returned by `get_todos_display` when the list is
empty (`src/todo.py` lines 58-63). -/
def emptyDisplay : String :=
  "\n            <div style=\"text-align: center; padding: 40px; color: #666;\">\n                <h3>No todos yet!</h3>\n                <p>Add your first todo above to get started.</p>\n            </div>\n            "

/-- The initial `html` value of the non-empty branch, a `<div>` opener plus
the `<style>` block (`src/todo.py` lines 65-121). -/
def headerHtml : String :=
  "\n        <div style=\"max-width: 600px; margin: 0 auto;\">\n            <style>\n                .todo-item \x7b\n                    display: flex;\n                    align-items: center;\n                    padding: 12px;\n                    margin: 8px 0;\n                    background: white;\n                    border: 1px solid #e1e5e9;\n                    border-radius: 6px;\n                    box-shadow: 0 1px 3px rgba(0,0,0,0.1);\n                \x7d\n                .todo-completed \x7b\n                    background: #f8f9fa;\n                    opacity: 0.7;\n                \x7d\n                .todo-text \x7b\n                    flex: 1;\n                    margin: 0 12px;\n                    font-size: 16px;\n                \x7d\n                .todo-completed .todo-text \x7b\n                    text-decoration: line-through;\n                    color: #6c757d;\n                \x7d\n                .todo-actions \x7b\n                    display: flex;\n                    gap: 8px;\n                \x7d\n                .btn-small \x7b\n                    padding: 4px 8px;\n                    font-size: 12px;\n                    border: none;\n                    border-radius: 4px;\n                    cursor: pointer;\n                \x7d\n                .btn-toggle \x7b\n                    background: #28a745;\n                    color: white;\n                \x7d\n                .btn-toggle.completed \x7b\n                    background: #6c757d;\n                \x7d\n                .btn-delete \x7b\n                    background: #dc3545;\n                    color: white;\n                \x7d\n                .stats \x7b\n                    text-align: center;\n                    margin: 20px 0;\n                    padding: 15px;\n                    background: #f8f9fa;\n                    border-radius: 6px;\n                \x7d\n            </style>\n        "

/-- The stats block f-string (`src/todo.py` lines 128-134), with the three
interpolated counts as arguments. -/
def statsBlock (total completed pending : Nat) : String :=
  "\n            <div class=\"stats\">\n                <strong>Total: " ++ toString total ++ "</strong> | \n                <span style=\"color: #28a745;\">Completed: " ++ toString completed ++ "</span> | \n                <span style=\"color: #ffc107;\">Pending: " ++ toString pending ++ "</span>\n            </div>\n        "

/-- The per-todo row f-string (`src/todo.py` lines 137-149). The
`toggle_text` and `toggle_class` locals computed in the loop are not used
by the f-string and are omitted. Note that `todo[\"text\"]` is interpolated
directly, with no escaping. -/
def todoRow (t : Todo) : String :=
  let completed_class := if t.completed then "todo-completed" else ""
  "\n            <div class=\"todo-item " ++ completed_class ++ "\">\n                <div class=\"todo-text\">" ++ t.text ++ "</div>\n                <div class=\"todo-actions\">\n                    <span style=\"font-size: 12px; color: #6c757d;\">" ++ t.created_at ++ "</span>\n                </div>\n            </div>\n            "

/-- `total`, the count computed at `src/todo.py` line 124. -/
def totalCount (s : TodoApp) : Nat := s.todos.length

/-- `completed`, the count computed at `src/todo.py` line 125. -/
def completedCount (s : TodoApp) : Nat := s.todos.countP (fun t => t.completed)

/-- `pending = total - completed` (`src/todo.py` line 126). -/
def pendingCount (s : TodoApp) : Nat := totalCount s - completedCount s

/-- `TodoApp.get_todos_display` (`src/todo.py` lines 55-152): the
empty-state div when `self.todos` is empty, otherwise header, stats block,
one row per todo, and a closing `</div>`. -/
def get_todos_display (s : TodoApp) : String :=
  if s.todos = [] then emptyDisplay
  else
    headerHtml ++ statsBlock (totalCount s) (completedCount s) (pendingCount s)
      ++ String.join (s.todos.map todoRow) ++ "</div>"

/-- `TodoApp.add_todo` (`src/todo.py` lines 11-24). Returns the new state
plus the Python return pair `(display, error)`. The `datetime.now()`
timestamp is passed in as `now`. -/
def add_todo (s : TodoApp) (text : String) (now : String) : TodoApp × String × String :=
  if text = "" || pyStrip text = "" then
    (s, get_todos_display s, "Please enter a todo item")
  else
    let todo : Todo := { id := s.next_id, text := pyStrip text, completed := false,
                         created_at := now }
    let s' : TodoApp := { todos := s.todos ++ [todo], next_id := s.next_id + 1 }
    (s', get_todos_display s', "")

/-- The `for ... if todo[\"id\"] == todo_id: ...; break` loop of
`toggle_todo`: flip `completed` on the first matching record only. -/
def toggleFirst (todo_id : Int) : List Todo → List Todo
  | [] => []
  | t :: ts =>
      if t.id = todo_id then { t with completed := !t.completed } :: ts
      else t :: toggleFirst todo_id ts

/-- `TodoApp.toggle_todo` (`src/todo.py` lines 26-32). -/
def toggle_todo (s : TodoApp) (todo_id : Int) : TodoApp × String :=
  let s' : TodoApp := { s with todos := toggleFirst todo_id s.todos }
  (s', get_todos_display s')

/-- `TodoApp.delete_todo` (`src/todo.py` lines 34-37): keep the records
whose id differs. -/
def delete_todo (s : TodoApp) (todo_id : Int) : TodoApp × String :=
  let s' : TodoApp := { s with todos := s.todos.filter (fun t => t.id != todo_id) }
  (s', get_todos_display s')

/-- The `for ... if todo[\"id\"] == todo_id: ...; break` loop of
`edit_todo`: replace `text` on the first matching record only. -/
def editFirst (todo_id : Int) (newText : String) : List Todo → List Todo
  | [] => []
  | t :: ts =>
      if t.id = todo_id then { t with text := newText } :: ts
      else t :: editFirst todo_id newText ts

/-- `TodoApp.edit_todo` (`src/todo.py` lines 39-48). -/
def edit_todo (s : TodoApp) (todo_id : Int) (new_text : String) : TodoApp × String :=
  if new_text = "" || pyStrip new_text = "" then (s, get_todos_display s)
  else
    let s' : TodoApp := { s with todos := editFirst todo_id (pyStrip new_text) s.todos }
    (s', get_todos_display s')

/-- `TodoApp.clear_completed` (`src/todo.py` lines 50-53). -/
def clear_completed (s : TodoApp) : TodoApp × String :=
  let s' : TodoApp := { s with todos := s.todos.filter (fun t => !t.completed) }
  (s', get_todos_display s')

/-- One user-level store operation, for reasoning about arbitrary
operation sequences. -/
inductive Op where
  | add (text now : String)
  | toggle (id : Int)
  | edit (id : Int) (text : String)
  | delete (id : Int)
  | clearCompleted
deriving Repr, DecidableEq

/-- Apply one operation to a state, discarding the returned display. -/
def step (s : TodoApp) : Op → TodoApp
  | .add text now => (add_todo s text now).1
  | .toggle i => (toggle_todo s i).1
  | .edit i t => (edit_todo s i t).1
  | .delete i => (delete_todo s i).1
  | .clearCompleted => (clear_completed s).1

/-- Run a sequence of operations from the initial empty state. -/
def run (ops : List Op) : TodoApp :=
  ops.foldl step TodoApp.init

/-- The list of ids currently in the store. -/
def ids (s : TodoApp) : List Int := s.todos.map Todo.id

/-- The store invariant: every stored id is below the counter, and the
ids are pairwise distinct. -/
def Inv (s : TodoApp) : Prop :=
  (∀ t ∈ s.todos, t.id < s.next_id) ∧ (ids s).Nodup

end TodoPy

namespace TodoPy

/-! Helper lemmas about the embedded operations. -/

theorem pyStrip_empty : pyStrip "" = "" := rfl

theorem text_ne_of_strip_ne {text : String} (h : pyStrip text ≠ "") : text ≠ "" :=
  fun he => h (by rw [he]; rfl)

/-- Failure branch of `add_todo`: whitespace-only input returns the old
state, its display, and the validation message. -/
theorem add_todo_of_strip_empty (s : TodoApp) (text now : String)
    (h : pyStrip text = "") :
    add_todo s text now = (s, get_todos_display s, "Please enter a todo item") := by
  simp [add_todo, h]

/-- Success branch of `add_todo`: append the fresh record and bump the
counter. -/
theorem add_todo_of_strip_ne (s : TodoApp) (text now : String)
    (h : pyStrip text ≠ "") :
    (add_todo s text now).1
        = { todos := s.todos ++ [{ id := s.next_id, text := pyStrip text,
                                   completed := false, created_at := now }],
            next_id := s.next_id + 1 } ∧
    (add_todo s text now).2.2 = "" := by
  constructor <;> simp [add_todo, h, text_ne_of_strip_ne h]

theorem toggleFirst_map_id (i : Int) (l : List Todo) :
    (toggleFirst i l).map Todo.id = l.map Todo.id := by
  induction l with
  | nil => rfl
  | cons t ts ih =>
      by_cases h : t.id = i <;> simp [toggleFirst, h, ih]

theorem editFirst_map_id (i : Int) (nt : String) (l : List Todo) :
    (editFirst i nt l).map Todo.id = l.map Todo.id := by
  induction l with
  | nil => rfl
  | cons t ts ih =>
      by_cases h : t.id = i <;> simp [editFirst, h, ih]

theorem toggleFirst_of_not_mem {i : Int} {l : List Todo}
    (h : ∀ t ∈ l, t.id ≠ i) : toggleFirst i l = l := by
  induction l with
  | nil => rfl
  | cons t ts ih =>
      simp only [toggleFirst, if_neg (h t (by simp))]
      rw [ih (fun u hu => h u (by simp [hu]))]

theorem editFirst_of_not_mem {i : Int} {nt : String} {l : List Todo}
    (h : ∀ t ∈ l, t.id ≠ i) : editFirst i nt l = l := by
  induction l with
  | nil => rfl
  | cons t ts ih =>
      simp only [editFirst, if_neg (h t (by simp))]
      rw [ih (fun u hu => h u (by simp [hu]))]

theorem filter_ne_of_not_mem {i : Int} {l : List Todo}
    (h : ∀ t ∈ l, t.id ≠ i) : l.filter (fun t => t.id != i) = l :=
  List.filter_eq_self.2 (fun t ht => by simpa using h t ht)

/-- Toggling the same id twice restores the todo list exactly (no
uniqueness assumption needed: only the first match is flipped, twice). -/
theorem toggleFirst_toggleFirst (i : Int) (l : List Todo) :
    toggleFirst i (toggleFirst i l) = l := by
  induction l with
  | nil => rfl
  | cons t ts ih =>
      by_cases h : t.id = i
      · cases t with
        | mk tid ttext tcomp tcreated =>
            simp only [Todo.id] at h
            simp [toggleFirst, h]
      · simp [toggleFirst, h, ih]

/-- First-occurrence decomposition: an id that occurs in the list splits
it as `pre ++ t :: post` where `t` is the first record with that id. -/
theorem exists_first_decomp {i : Int} {l : List Todo}
    (h : i ∈ l.map Todo.id) :
    ∃ pre t post, l = pre ++ t :: post ∧ t.id = i ∧ ∀ u ∈ pre, u.id ≠ i := by
  induction l with
  | nil => simp at h
  | cons t ts ih =>
      by_cases ht : t.id = i
      · exact ⟨[], t, ts, by simp, ht, by simp⟩
      · have h' : i ∈ ts.map Todo.id := by
          rcases List.mem_map.1 h with ⟨u, hu, hui⟩
          rcases List.mem_cons.1 hu with rfl | hu'
          · exact absurd hui ht
          · exact List.mem_map.2 ⟨u, hu', hui⟩
        rcases ih h' with ⟨pre, u, post, rfl, hui, hpre⟩
        exact ⟨t :: pre, u, post, rfl, hui,
          fun v hv => by
            rcases List.mem_cons.1 hv with rfl | hv'
            · exact ht
            · exact hpre v hv'⟩

theorem toggleFirst_append {i : Int} {pre post : List Todo} {t : Todo}
    (hpre : ∀ u ∈ pre, u.id ≠ i) (ht : t.id = i) :
    toggleFirst i (pre ++ t :: post)
      = pre ++ { t with completed := !t.completed } :: post := by
  induction pre with
  | nil => simp [toggleFirst, ht]
  | cons u us ih =>
      simp only [List.cons_append, toggleFirst, if_neg (hpre u (by simp)),
        List.append_eq]
      rw [ih (fun v hv => hpre v (by simp [hv]))]

theorem editFirst_append {i : Int} {nt : String} {pre post : List Todo} {t : Todo}
    (hpre : ∀ u ∈ pre, u.id ≠ i) (ht : t.id = i) :
    editFirst i nt (pre ++ t :: post) = pre ++ { t with text := nt } :: post := by
  induction pre with
  | nil => simp [editFirst, ht]
  | cons u us ih =>
      simp only [List.cons_append, editFirst, if_neg (hpre u (by simp)),
        List.append_eq]
      rw [ih (fun v hv => hpre v (by simp [hv]))]

/-- With unique ids, the decomposition of `exists_first_decomp` also has
no occurrence of the id after the split point. -/
theorem nodup_decomp_post {i : Int} {pre post : List Todo} {t : Todo}
    (hnd : ((pre ++ t :: post).map Todo.id).Nodup) (ht : t.id = i) :
    ∀ u ∈ post, u.id ≠ i := by
  intro u hu
  simp only [List.map_append, List.map_cons, List.nodup_append,
    List.nodup_cons] at hnd
  intro hui
  exact hnd.2.1.1 (ht ▸ hui ▸ List.mem_map.2 ⟨u, hu, rfl⟩)

theorem inv_init : Inv TodoApp.init := by
  constructor <;> simp [TodoApp.init, ids]

theorem inv_step (s : TodoApp) (op : Op) (h : Inv s) : Inv (step s op) := by
  obtain ⟨hlt, hnd⟩ := h
  cases op with
  | add text now =>
      by_cases hs : pyStrip text = ""
      · simpa [step, add_todo_of_strip_empty s text now hs] using ⟨hlt, hnd⟩
      · have hadd := (add_todo_of_strip_ne s text now hs).1
        constructor
        · intro t ht
          simp only [step, hadd, List.mem_append, List.mem_singleton] at ht ⊢
          rcases ht with ht | rfl
          · have := hlt t ht; omega
          · show s.next_id < s.next_id + 1
            omega
        · have hfresh : s.next_id ∉ ids s := fun hmem => by
            rcases List.mem_map.1 hmem with ⟨t, ht, hid⟩
            exact absurd hid (by have := hlt t ht; omega)
          simp only [step, ids, hadd, List.map_append, List.map_cons,
            List.map_nil, List.nodup_append, List.nodup_cons]
          refine ⟨hnd, by simp, fun a ha hb => ?_⟩
          simp only [List.mem_cons, List.not_mem_nil, or_false] at hb
          exact hfresh (hb ▸ ha)
  | toggle i =>
      refine ⟨fun t ht => ?_, ?_⟩
      · have : t.id ∈ (toggleFirst i s.todos).map Todo.id :=
          List.mem_map.2 ⟨t, ht, rfl⟩
        rw [toggleFirst_map_id] at this
        rcases List.mem_map.1 this with ⟨u, hu, hid⟩
        simpa [step, toggle_todo, hid] using hlt u hu
      · simpa [step, toggle_todo, ids, toggleFirst_map_id] using hnd
  | edit i nt =>
      by_cases hs : nt = "" ∨ pyStrip nt = ""
      · have : step s (.edit i nt) = s := by
          rcases hs with hs | hs <;>
            simp [step, edit_todo, hs]
        rw [this]; exact ⟨hlt, hnd⟩
      · push_neg at hs
        refine ⟨fun t ht => ?_, ?_⟩
        · have hmm : t.id ∈ (editFirst i (pyStrip nt) s.todos).map Todo.id :=
            List.mem_map.2 ⟨t, by simpa [step, edit_todo, hs.1, hs.2] using ht, rfl⟩
          rw [editFirst_map_id] at hmm
          rcases List.mem_map.1 hmm with ⟨u, hu, hid⟩
          simpa [step, edit_todo, hs.1, hs.2, hid] using hlt u hu
        · simpa [step, edit_todo, ids, hs.1, hs.2, editFirst_map_id] using hnd
  | delete i =>
      refine ⟨fun t ht => ?_, ?_⟩
      · have ht' : t ∈ s.todos.filter (fun u => u.id != i) := ht
        show t.id < s.next_id
        exact hlt t ((List.filter_sublist s.todos).subset ht')
      · show ((s.todos.filter (fun u => u.id != i)).map Todo.id).Nodup
        exact hnd.sublist ((List.filter_sublist s.todos).map Todo.id)
  | clearCompleted =>
      refine ⟨fun t ht => ?_, ?_⟩
      · have ht' : t ∈ s.todos.filter (fun u => !u.completed) := ht
        show t.id < s.next_id
        exact hlt t ((List.filter_sublist s.todos).subset ht')
      · show ((s.todos.filter (fun u => !u.completed)).map Todo.id).Nodup
        exact hnd.sublist ((List.filter_sublist s.todos).map Todo.id)

theorem inv_foldl (l : List Op) (s : TodoApp) (h : Inv s) : Inv (l.foldl step s) := by
  induction l generalizing s with
  | nil => exact h
  | cons op ops ih => exact ih (step s op) (inv_step s op h)

theorem inv_run (ops : List Op) : Inv (run ops) :=
  inv_foldl ops TodoApp.init inv_init

theorem next_id_le_step (s : TodoApp) (op : Op) :
    s.next_id ≤ (step s op).next_id := by
  cases op with
  | add text now =>
      by_cases hs : pyStrip text = ""
      · simp [step, add_todo_of_strip_empty s text now hs]
      · simp [step, (add_todo_of_strip_ne s text now hs).1]
  | toggle i => simp [step, toggle_todo]
  | edit i nt =>
      by_cases h1 : nt = "" <;> by_cases h2 : pyStrip nt = "" <;>
        simp [step, edit_todo, h1, h2]
  | delete i => simp [step, delete_todo]
  | clearCompleted => simp [step, clear_completed]

/-- C1: for every operation sequence from the initial state, the stored
ids are pairwise distinct, the next-id counter never decreases under any
further operation, and a successful add assigns the current counter value
as the new id and increments the counter. -/
theorem store_ids_unique_and_counter_monotone (ops : List Op) :
    (ids (run ops)).Nodup ∧
    (∀ op, (run ops).next_id ≤ (step (run ops) op).next_id) ∧
    (∀ text now, pyStrip text ≠ "" →
      ids (add_todo (run ops) text now).1 = ids (run ops) ++ [(run ops).next_id] ∧
      (add_todo (run ops) text now).1.next_id = (run ops).next_id + 1) := by
  refine ⟨(inv_run ops).2, fun op => next_id_le_step (run ops) op,
    fun text now h => ?_⟩
  have hadd := (add_todo_of_strip_ne (run ops) text now h).1
  exact ⟨by simp [ids, hadd], by simp [hadd]⟩

/-- Witness for C1 at a concrete operation sequence. -/
theorem store_ids_unique_and_counter_monotone_witness :
    (ids (run [Op.add "A" "t"])).Nodup ∧
    ids (add_todo (run [Op.add "A" "t"]) "B" "u").1
      = ids (run [Op.add "A" "t"]) ++ [(run [Op.add "A" "t"]).next_id] :=
  ⟨(store_ids_unique_and_counter_monotone [Op.add "A" "t"]).1,
   ((store_ids_unique_and_counter_monotone [Op.add "A" "t"]).2.2 "B" "u"
      (by decide)).1⟩

/-- C2: `add_todo` on whitespace-only input returns the validation message
and leaves the store untouched; otherwise it appends exactly one record
with the trimmed text, the current counter as id and `completed = false`,
grows the size by one, increments the counter, and reports no error. -/
theorem add_todo_validates_and_appends (s : TodoApp) (text now : String) :
    (pyStrip text = "" →
      add_todo s text now = (s, get_todos_display s, "Please enter a todo item")) ∧
    (pyStrip text ≠ "" →
      (add_todo s text now).1.todos
          = s.todos ++ [{ id := s.next_id, text := pyStrip text,
                          completed := false, created_at := now }] ∧
      (add_todo s text now).1.todos.length = s.todos.length + 1 ∧
      (add_todo s text now).1.next_id = s.next_id + 1 ∧
      (add_todo s text now).2.2 = "") := by
  refine ⟨fun h => add_todo_of_strip_empty s text now h, fun h => ?_⟩
  have hadd := add_todo_of_strip_ne s text now h
  exact ⟨by simp [hadd.1], by simp [hadd.1], by simp [hadd.1], hadd.2⟩

/-- Witness for C2: a whitespace-only add and a successful add. -/
theorem add_todo_validates_and_appends_witness :
    add_todo TodoApp.init "   " "t"
        = (TodoApp.init, get_todos_display TodoApp.init, "Please enter a todo item") ∧
    (add_todo TodoApp.init "Buy milk" "t").1.todos
        = TodoApp.init.todos
            ++ [{ id := TodoApp.init.next_id, text := pyStrip "Buy milk",
                  completed := false, created_at := "t" }] :=
  ⟨(add_todo_validates_and_appends TodoApp.init "   " "t").1 (by decide),
   ((add_todo_validates_and_appends TodoApp.init "Buy milk" "t").2 (by decide)).1⟩

/-- C5: toggling, deleting or editing an id that is not in the store
leaves the state exactly as it was. -/
theorem missing_id_operations_are_noops (s : TodoApp) (i : Int) (nt : String)
    (h : i ∉ ids s) :
    (toggle_todo s i).1 = s ∧ (delete_todo s i).1 = s ∧ (edit_todo s i nt).1 = s := by
  have hall : ∀ t ∈ s.todos, t.id ≠ i := fun t ht he =>
    h (List.mem_map.2 ⟨t, ht, he⟩)
  refine ⟨?_, ?_, ?_⟩
  · simp [toggle_todo, toggleFirst_of_not_mem hall]
  · simp [delete_todo, filter_ne_of_not_mem hall]
  · by_cases h1 : nt = "" <;> by_cases h2 : pyStrip nt = "" <;>
      simp [edit_todo, h1, h2, editFirst_of_not_mem hall]

/-- Witness for C5 on a store holding only id 1, probed with id 99. -/
theorem missing_id_operations_are_noops_witness :
    (toggle_todo (run [Op.add "A" "t"]) 99).1 = run [Op.add "A" "t"] ∧
    (delete_todo (run [Op.add "A" "t"]) 99).1 = run [Op.add "A" "t"] ∧
    (edit_todo (run [Op.add "A" "t"]) 99 "x").1 = run [Op.add "A" "t"] :=
  missing_id_operations_are_noops (run [Op.add "A" "t"]) 99 "x" (by decide)

/-- C10: every mutating operation returns the rendered display of the
post-operation state; `add_todo` additionally returns the empty string on
success and the validation message on failure as its second component. -/
theorem operations_return_display_of_new_state (s : TodoApp)
    (text now nt : String) (i : Int) :
    (add_todo s text now).2.1 = get_todos_display (add_todo s text now).1 ∧
    (add_todo s text now).2.2
        = (if pyStrip text = "" then "Please enter a todo item" else "") ∧
    (toggle_todo s i).2 = get_todos_display (toggle_todo s i).1 ∧
    (delete_todo s i).2 = get_todos_display (delete_todo s i).1 ∧
    (edit_todo s i nt).2 = get_todos_display (edit_todo s i nt).1 ∧
    (clear_completed s).2 = get_todos_display (clear_completed s).1 := by
  refine ⟨?_, ?_, rfl, rfl, ?_, rfl⟩
  · by_cases h : pyStrip text = ""
    · rw [add_todo_of_strip_empty s text now h]
    · simp [add_todo, h, text_ne_of_strip_ne h]
  · by_cases h : pyStrip text = ""
    · simp [add_todo, h]
    · simp [add_todo, h, text_ne_of_strip_ne h]
  · by_cases h1 : nt = "" <;> by_cases h2 : pyStrip nt = "" <;>
      simp [edit_todo, h1, h2]

/-- C4: with unique ids, toggling an id present in the store flips the
`completed` flag of exactly the matching record, keeps its other fields,
keeps all other records and their order, and toggling twice restores the
original record sequence. -/
theorem toggle_todo_flips_one_and_is_involutive (s : TodoApp) (i : Int)
    (hnd : (ids s).Nodup) (hmem : i ∈ ids s) :
    (∃ pre t post,
        s.todos = pre ++ t :: post ∧ t.id = i ∧
        (∀ u ∈ pre, u.id ≠ i) ∧ (∀ u ∈ post, u.id ≠ i) ∧
        (toggle_todo s i).1.todos
          = pre ++ { t with completed := !t.completed } :: post ∧
        (toggle_todo s i).1.next_id = s.next_id) ∧
    (toggle_todo (toggle_todo s i).1 i).1.todos = s.todos := by
  constructor
  · rcases exists_first_decomp hmem with ⟨pre, t, post, hdec, hid, hpre⟩
    have hpost := nodup_decomp_post (by rwa [ids, hdec] at hnd) hid
    exact ⟨pre, t, post, hdec, hid, hpre, hpost,
      by simp [toggle_todo, hdec, toggleFirst_append hpre hid], rfl⟩
  · simp [toggle_todo, toggleFirst_toggleFirst]

/-- Witness for C4: double toggle on a two-element store. -/
theorem toggle_todo_flips_one_and_is_involutive_witness :
    (toggle_todo (toggle_todo (run [Op.add "A" "t", Op.add "B" "u"]) 1).1 1).1.todos
      = (run [Op.add "A" "t", Op.add "B" "u"]).todos :=
  (toggle_todo_flips_one_and_is_involutive (run [Op.add "A" "t", Op.add "B" "u"]) 1
    (by decide) (by decide)).2

/-- C6: with unique ids, deleting a present id removes exactly the
matching record and keeps the others in order; deleting an absent id
changes nothing. -/
theorem delete_todo_removes_exactly_one (s : TodoApp) (i : Int)
    (hnd : (ids s).Nodup) :
    (i ∈ ids s →
      ∃ pre t post, s.todos = pre ++ t :: post ∧ t.id = i ∧
        (∀ u ∈ pre, u.id ≠ i) ∧ (∀ u ∈ post, u.id ≠ i) ∧
        (delete_todo s i).1.todos = pre ++ post) ∧
    (i ∈ ids s → (delete_todo s i).1.todos.length + 1 = s.todos.length) ∧
    (i ∉ ids s → (delete_todo s i).1 = s) := by
  have key : i ∈ ids s →
      ∃ pre t post, s.todos = pre ++ t :: post ∧ t.id = i ∧
        (∀ u ∈ pre, u.id ≠ i) ∧ (∀ u ∈ post, u.id ≠ i) ∧
        (delete_todo s i).1.todos = pre ++ post := by
    intro hmem
    rcases exists_first_decomp hmem with ⟨pre, t, post, hdec, hid, hpre⟩
    have hpost := nodup_decomp_post (by rwa [ids, hdec] at hnd) hid
    refine ⟨pre, t, post, hdec, hid, hpre, hpost, ?_⟩
    show (s.todos.filter fun u => u.id != i) = pre ++ post
    rw [hdec, List.filter_append, filter_ne_of_not_mem hpre, List.filter_cons,
      filter_ne_of_not_mem hpost]
    simp [hid]
  refine ⟨key, fun hmem => ?_, fun hmem => ?_⟩
  · rcases key hmem with ⟨pre, t, post, hdec, _, _, _, hres⟩
    rw [hres, hdec]
    simp
    omega
  · have hall : ∀ t ∈ s.todos, t.id ≠ i := fun t ht he =>
      hmem (List.mem_map.2 ⟨t, ht, he⟩)
    simp [delete_todo, filter_ne_of_not_mem hall]

/-- Witness for C6: delete a present id and an absent id. -/
theorem delete_todo_removes_exactly_one_witness :
    (delete_todo (run [Op.add "A" "t", Op.add "B" "u"]) 1).1.todos.length + 1
        = (run [Op.add "A" "t", Op.add "B" "u"]).todos.length ∧
    (delete_todo (run [Op.add "A" "t", Op.add "B" "u"]) 99).1
        = run [Op.add "A" "t", Op.add "B" "u"] :=
  ⟨(delete_todo_removes_exactly_one (run [Op.add "A" "t", Op.add "B" "u"]) 1
      (by decide)).2.1 (by decide),
   (delete_todo_removes_exactly_one (run [Op.add "A" "t", Op.add "B" "u"]) 99
      (by decide)).2.2 (by decide)⟩

/-- C7: editing with whitespace-only text is a no-op; with unique ids,
editing a present id with non-blank text replaces only the `text` field of
the matching record, keeping its other fields, the counter, the other
records and their order. -/
theorem edit_todo_blank_noop_and_updates_text_only (s : TodoApp) (i : Int)
    (nt : String) :
    (pyStrip nt = "" → edit_todo s i nt = (s, get_todos_display s)) ∧
    (pyStrip nt ≠ "" → (edit_todo s i nt).1.next_id = s.next_id) ∧
    (pyStrip nt ≠ "" → (ids s).Nodup → i ∈ ids s →
      ∃ pre t post, s.todos = pre ++ t :: post ∧ t.id = i ∧
        (∀ u ∈ pre, u.id ≠ i) ∧ (∀ u ∈ post, u.id ≠ i) ∧
        (edit_todo s i nt).1.todos
          = pre ++ { t with text := pyStrip nt } :: post) := by
  refine ⟨fun h => by simp [edit_todo, h], fun h => ?_, fun h hnd hmem => ?_⟩
  · simp [edit_todo, h, text_ne_of_strip_ne h]
  · rcases exists_first_decomp hmem with ⟨pre, t, post, hdec, hid, hpre⟩
    have hpost := nodup_decomp_post (by rwa [ids, hdec] at hnd) hid
    exact ⟨pre, t, post, hdec, hid, hpre, hpost,
      by simp [edit_todo, h, text_ne_of_strip_ne h, hdec,
        editFirst_append hpre hid]⟩

/-- Witness for C7: a blank edit and the counter after a real edit. -/
theorem edit_todo_blank_noop_and_updates_text_only_witness :
    edit_todo (run [Op.add "A" "t"]) 1 "   "
        = (run [Op.add "A" "t"], get_todos_display (run [Op.add "A" "t"])) ∧
    (edit_todo (run [Op.add "A" "t"]) 1 " B ").1.next_id
        = (run [Op.add "A" "t"]).next_id :=
  ⟨(edit_todo_blank_noop_and_updates_text_only (run [Op.add "A" "t"]) 1 "   ").1
      (by decide),
   (edit_todo_blank_noop_and_updates_text_only (run [Op.add "A" "t"]) 1 " B ").2.1
      (by decide)⟩

/-- C8: `clear_completed` removes every completed record and no pending
one, keeps the relative order of the survivors, and is idempotent. -/
theorem clear_completed_removes_exactly_completed (s : TodoApp) :
    (∀ t ∈ (clear_completed s).1.todos, t.completed = false) ∧
    (∀ t ∈ s.todos, t.completed = false → t ∈ (clear_completed s).1.todos) ∧
    (clear_completed s).1.todos.Sublist s.todos ∧
    (clear_completed (clear_completed s).1).1 = (clear_completed s).1 := by
  refine ⟨?_, ?_, ?_, ?_⟩
  · intro t ht
    have ht' : t ∈ s.todos.filter (fun u => !u.completed) := ht
    simpa using (List.mem_filter.1 ht').2
  · intro t ht hc
    show t ∈ s.todos.filter (fun u => !u.completed)
    exact List.mem_filter.2 ⟨ht, by simp [hc]⟩
  · exact List.filter_sublist s.todos
  · have hidem : (s.todos.filter (fun u => !u.completed)).filter
        (fun u => !u.completed) = s.todos.filter (fun u => !u.completed) :=
      List.filter_eq_self.2 (fun a ha => (List.mem_filter.1 ha).2)
    simp [clear_completed, hidem]

/-- Witness for C8: the pending record survives a concrete clear. -/
theorem clear_completed_removes_exactly_completed_witness :
    (⟨2, "B", false, "u"⟩ : Todo)
      ∈ (clear_completed (run [Op.add "A" "t", Op.add "B" "u", Op.toggle 1])).1.todos :=
  (clear_completed_removes_exactly_completed
      (run [Op.add "A" "t", Op.add "B" "u", Op.toggle 1])).2.1
    ⟨2, "B", false, "u"⟩ (by decide) rfl

/-- C9: the renderer yields the designated empty-state markup exactly when
the store is empty, and on a non-empty store its summary counts satisfy
`total = completed + pending` with that stats block embedded in the
output. -/
theorem display_empty_state_and_consistent_counts (s : TodoApp) :
    (s.todos = [] → get_todos_display s = emptyDisplay) ∧
    (s.todos ≠ [] →
      totalCount s = completedCount s + pendingCount s ∧
      ∃ a b, get_todos_display s
        = a ++ statsBlock (totalCount s) (completedCount s) (pendingCount s) ++ b) := by
  constructor
  · intro h; simp [get_todos_display, h]
  · intro h
    refine ⟨?_, headerHtml, String.join (s.todos.map todoRow) ++ "</div>", ?_⟩
    · have h1 : completedCount s ≤ totalCount s := by
        unfold completedCount totalCount
        exact List.countP_le_length _
      unfold pendingCount
      omega
    · simp [get_todos_display, h, String.append_assoc]

/-- Witness for C9: the empty store renders the empty state, and a
one-element store has consistent counts. -/
theorem display_empty_state_and_consistent_counts_witness :
    get_todos_display TodoApp.init = emptyDisplay ∧
    totalCount (run [Op.add "A" "t"])
        = completedCount (run [Op.add "A" "t"]) + pendingCount (run [Op.add "A" "t"]) :=
  ⟨(display_empty_state_and_consistent_counts TodoApp.init).1 rfl,
   ((display_empty_state_and_consistent_counts (run [Op.add "A" "t"])).2
      (by decide)).1⟩

/-- C3 (code behavior at the failing input): the renderer interpolates a
record's `text` into the markup verbatim, so markup-significant characters
survive unescaped — here a raw `<script>` element added as todo text
reappears literally in the rendered output. -/
theorem rendered_text_not_escaped :
    ∃ a b, get_todos_display (run [Op.add "<script>alert(1)</script>" "ts"])
        = a ++ "<script>alert(1)</script>" ++ b := by
  have hstrip : pyStrip "<script>alert(1)</script>" = "<script>alert(1)</script>" := by
    decide
  have hrun : run [Op.add "<script>alert(1)</script>" "ts"]
      = { todos := [{ id := 1, text := "<script>alert(1)</script>",
                      completed := false, created_at := "ts" }],
          next_id := 2 } := by
    have h := (add_todo_of_strip_ne TodoApp.init "<script>alert(1)</script>" "ts"
        (by simp [hstrip])).1
    simpa [run, step, TodoApp.init, hstrip] using h
  refine ⟨headerHtml ++ statsBlock 1 0 1
      ++ ("\n            <div class=\"todo-item "
          ++ "\">\n                <div class=\"todo-text\">"),
    ("</div>\n                <div class=\"todo-actions\">\n                    <span style=\"font-size: 12px; color: #6c757d;\">"
      ++ "ts"
      ++ "</span>\n                </div>\n            </div>\n            ")
      ++ "</div>", ?_⟩
  rw [hrun]
  simp [get_todos_display, todoRow, String.join, String.append_assoc,
    totalCount, completedCount, pendingCount, List.countP_cons, List.countP_nil]

end TodoPy
